import Mathlib

/-!
Verification of the trade-lifecycle and signal-quality engine of the
Discord-to-Bybit trading bot (repository `Zei`).

Prices, scores and percentages, which the Python source holds as `float`,
are modelled as exact rationals (`ℚ`).  Statuses and sides, which the
source holds as fixed strings, are modelled as small inductive types.
Each definition carries a reference to the source function it embeds.
-/

/-- Side of a trade.  The parsers normalise the signal side to the strings
`"buy"`/`"sell"`; the trade records hold the Bybit order side `"Buy"`/`"Sell"`.
Both are two-valued and are modelled by this one inductive type. -/

inductive Side where
  | buy
  | sell
deriving DecidableEq, Repr

/-- Rendering of `Side` as the lowercase parser string stored in
`sig["side"]`. -/

def sideStr : Side → String
  | .buy => "buy"
  | .sell => "sell"

/-- Trade status strings used in `main.py` / `trade_engine`:
`"pending"`, `"open"`, `"closed"`, `"cancelled"`, `"cancelled_past_tp"`.
The constructor for `"open"` is named `opened` because `open` is a Lean
keyword. -/

inductive Status where
  | pending
  | opened
  | closed
  | cancelled
  | cancelledPastTp
deriving DecidableEq, Repr

/-- A parsed signal as produced by `parse_signal` / `parse_all_signals`
(`signal_parser.py`, `signal_parser_v2.py`, `signal_parser_v3.py`):
symbol, side, trigger price, TP list, DCA list, optional stop-loss.
Fields not used by any claim (leverage, trader, raw text, timeframe)
are omitted. -/

structure Signal where
  symbol : String
  side : Side
  trigger : ℚ
  tp_prices : List ℚ
  dca_prices : List ℚ
  sl_price : Option ℚ
deriving DecidableEq, Repr

/-! ### Signal hashes (C2)

`signal_hash` in each parser version renders a pipe-separated core string
from a fixed tuple of signal fields and returns its MD5 hex digest:

* v1 (`signal_parser.py:190`) and v2 (`signal_parser_v2.py:201`):
  `f"{symbol}|{side}|{trigger}|{tp_prices}|{dca_prices}"`;
* v3 (`signal_parser_v3.py:219`):
  `f"{symbol}|{side}|{trigger}|{tp_prices}"` — the DCA list is omitted.

MD5 and Python `repr` of floats are external to this development; the
hash is modelled by the tuple of fields that determines the core string
(equal tuples give the same digest, and the rendering is injective on
these fields so distinct tuples give distinct core strings). -/

/-- Hash core of `signal_parser.signal_hash` (v1):
symbol, side, trigger, TP list, DCA list. -/

def signalHashV1 (s : Signal) : String × String × ℚ × List ℚ × List ℚ :=
  (s.symbol, sideStr s.side, s.trigger, s.tp_prices, s.dca_prices)

/-- Hash core of `signal_parser_v2.signal_hash` (v2): identical fields to v1. -/

def signalHashV2 (s : Signal) : String × String × ℚ × List ℚ × List ℚ :=
  (s.symbol, sideStr s.side, s.trigger, s.tp_prices, s.dca_prices)

/-- Hash core of `signal_parser_v3.signal_hash` (v3): the DCA list is NOT
part of the core string. -/

def signalHashV3 (s : Signal) : String × String × ℚ × List ℚ :=
  (s.symbol, sideStr s.side, s.trigger, s.tp_prices)

/-- Concrete signal for the C2 counterexample, scale-in at 25. -/
def sigDcaA : Signal := ⟨"ATOMUSDT", .buy, 2576, [2657, 2676], [25], some 2477⟩

/-- The same signal with the scale-in moved to 24 — the only difference. -/
def sigDcaB : Signal := ⟨"ATOMUSDT", .buy, 2576, [2657, 2676], [24], some 2477⟩

/-- Concrete signal for the C2 witness, scale-in at 66000. -/
def sigDcaC : Signal :=
  ⟨"BTCUSDT", .sell, 65000, [64000, 63000], [66000], some 67000⟩

/-- The witness signal with only the scale-in changed. -/
def sigDcaD : Signal :=
  ⟨"BTCUSDT", .sell, 65000, [64000, 63000], [66500], some 67000⟩

/-! ### TP split renormalisation (C9), from `config.py:171-175` -/

/-- Embeds the module-level normalisation of `TP_SPLITS` in `config.py`:
the raw configured list is rescaled by `100/sum` only when its sum
exceeds `100`, otherwise left untouched. -/

def normalizeTpSplits (raw : List ℚ) : List ℚ :=
  if 100 < raw.sum then raw.map (fun x => x * 100 / raw.sum) else raw

/-! ### Seen-signal-hash cap (C8), from `main.py:505`

`st["seen_signal_hashes"] = list(seen)[-500:]` where `seen` is a Python
`set` built from the previous persisted list plus the hashes of this
pass.  `list(seen)` materialises the unordered set in an unspecified
enumeration order; the slice keeps the last 500 entries of that
materialisation.  The slice is generic in the element type. -/

/-- Embeds `list(seen)[-500:]`: the last 500 entries of the materialised
set. `l[-500:]` is all of `l` when `l` has at most 500 elements. -/

def seenHashesAfterPass {α : Type} (materialized : List α) : List α :=
  materialized.drop (materialized.length - 500)

/-- Claim-side definition, following the spec's words: the most recently
seen `n` entries of the hashes in insertion order. -/

def mostRecentKeep {α : Type} (n : ℕ) (insertedInOrder : List α) : List α :=
  insertedInOrder.drop (insertedInOrder.length - n)

/-! ### Main-loop step order (C3), from `main.py:397-601`

The body of the `while True:` control loop is a straight-line sequence of
statements (the signal-update check and the ingestion block are guarded
by interval/limit conditionals but occupy fixed positions in the
sequence).  Each statement is named by a `LoopStep`; `mainLoopBody` lists
them in source order. -/

/-- The operations of one main-loop iteration, in the order they can run. -/

inductive LoopStep where
  | cancelExpiredEntries      -- main.py:406  engine.cancel_expired_entries()
  | cancelEntriesPastTp       -- main.py:407  engine.cancel_entries_past_tp()
  | cleanupClosedTrades       -- main.py:408  engine.cleanup_closed_trades()
  | checkTpFillsFallback      -- main.py:409  engine.check_tp_fills_fallback()
  | reconcileOrphanedPositions  -- main.py:410  engine.reconcile_orphaned_positions()
  | checkPositionAlerts       -- main.py:411  engine.check_position_alerts()
  | logDailyStats             -- main.py:412  engine.log_daily_stats()
  | checkSignalUpdates        -- main.py:415-417  signal-update check
  | entryFillPoll             -- main.py:420-430  entry-fill fallback polling of pending trades
  | readFeedAndIngest         -- main.py:439-581  Discord read, dedupe, scoring, entry placement
  | immediateFillCheck        -- main.py:585-599  quick post-batch fill check
  | saveStateStep             -- main.py:601  save_state
deriving DecidableEq, Repr

/-- The statements of one iteration of the `while True:` loop in `main()`,
in source order. -/

def mainLoopBody : List LoopStep :=
  [.cancelExpiredEntries, .cancelEntriesPastTp, .cleanupClosedTrades,
   .checkTpFillsFallback, .reconcileOrphanedPositions, .checkPositionAlerts,
   .logDailyStats, .checkSignalUpdates, .entryFillPoll, .readFeedAndIngest,
   .immediateFillCheck, .saveStateStep]

/-- Position of a step in the loop body. -/

def stepPos (s : LoopStep) : ℕ :=
  mainLoopBody.findIdx (fun t => t = s)

/-! ### Risk/reward and signal score (`signal_scorer.py`) -/

/-- Trend direction as classified by `trend_analysis.py` (`TrendDirection`). -/

inductive TrendDirection where
  | up
  | down
  | neutral
deriving DecidableEq, Repr

/-- Rendering of `TrendDirection.value` ("uptrend"/"downtrend"/"neutral"). -/

def dirStr : TrendDirection → String
  | .up => "uptrend"
  | .down => "downtrend"
  | .neutral => "neutral"

/-- One candle of Bybit kline data as consumed by `trend_analysis.py`:
only the fields the module reads (`high`, `low`, `close`, `timestamp`). -/

structure Candle where
  high : ℚ
  low : ℚ
  close : ℚ
  timestamp : ℤ
deriving DecidableEq, Repr

/-- A swing high or low point (`trend_analysis.SwingPoint`). -/

structure SwingPoint where
  index : ℕ
  price : ℚ
  timestamp : ℤ
  is_high : Bool
deriving DecidableEq, Repr

/-- Result of `trend_analysis.analyze_trend` (`trend_analysis.TrendAnalysis`).
The `legs` field of the source dataclass is always the empty list in every
construction site and is omitted here.  `recommendation` is one of
`"VALID"`, `"LATE"`, `"SKIP"` exactly as in the source. -/

structure TrendAnalysis where
  direction : TrendDirection
  current_leg : ℕ
  is_pullback : Bool
  swing_points : List SwingPoint
  recommendation : String
  reason : String
deriving DecidableEq, Repr

/-- Embeds `signal_scorer.calculate_rr_ratio` (`signal_scorer.py:31-65`).
Python falsiness of `entry`, `sl` and `tp1` (absent or zero) yields `0.0`;
a non-positive risk distance yields `0.0`; otherwise reward/risk with the
side-dependent orientation. -/

def calculate_rr_ratio (s : Signal) : ℚ :=
  if s.trigger = 0 then 0
  else match s.sl_price with
    | none => 0
    | some sl =>
      if sl = 0 then 0
      else match s.tp_prices with
        | [] => 0
        | tp1 :: _ =>
          if tp1 = 0 then 0
          else
            let reward := match s.side with
              | .buy => tp1 - s.trigger
              | .sell => s.trigger - tp1
            let risk := match s.side with
              | .buy => s.trigger - sl
              | .sell => sl - s.trigger
            if risk ≤ 0 then 0 else reward / risk

/-- Embeds `signal_scorer.score_signal` (`signal_scorer.py:68-117`).
Returns `(score, skip_reason)`.  `rest` plays the role of the fall-through
tail of the Python function after the leg-bonus `if/elif` (pullback bonus,
R:R bonus, LATE penalty). -/

def score_signal (signal : Signal) (analysis : Option TrendAnalysis)
    (max_allowed_leg : ℕ := 3) : ℚ × Option String :=
  match analysis with
  | none => (0, some "No trend analysis available")
  | some a =>
    if a.recommendation = "SKIP" then (0, some a.reason)
    else
      let rest : ℚ → ℚ × Option String := fun base =>
        let withPullback := if a.is_pullback then base + 15 else base
        let rrBonus := min (calculate_rr_ratio signal * 10) 30
        let withRr := withPullback + rrBonus
        let final := if a.recommendation = "LATE" then withRr - 20 else withRr
        (final, none)
      if 0 < a.current_leg ∧ a.current_leg ≤ max_allowed_leg then
        rest (100 + ((max_allowed_leg : ℚ) - (a.current_leg : ℚ) + 1) * 20)
      else if max_allowed_leg < a.current_leg then
        (0, some ("Leg " ++ toString a.current_leg ++ " > max allowed "
          ++ toString max_allowed_leg))
      else
        rest 100

/-! ### Batch scoring and selection (`signal_scorer.py:120-234`) -/

/-- A signal with its analysis score (`signal_scorer.ScoredSignal`). -/

structure ScoredSignal where
  signal : Signal
  analysis : Option TrendAnalysis
  score : ℚ
  rr_ratio : ℚ
  skip_reason : Option String
deriving DecidableEq, Repr

/-- Stable descending insertion: a later-arriving element is placed after
every already-placed element of greater-or-equal score.  Together with
`sortByScoreDesc` this models Python's stable `list.sort(key=..., reverse=True)`
at `signal_scorer.py:194`. -/

def insertByScore (x : ScoredSignal) : List ScoredSignal → List ScoredSignal
  | [] => [x]
  | y :: ys => if x.score ≤ y.score then y :: insertByScore x ys else x :: y :: ys

/-- Stable sort by score, descending: elements are inserted in arrival
order, so equal scores keep their original relative order. -/

def sortByScoreDesc (l : List ScoredSignal) : List ScoredSignal :=
  l.foldl (fun acc x => insertByScore x acc) []

/-- Builds the `ScoredSignal` record for one signal exactly as the loop
body of `score_signals_batch` does (`signal_scorer.py:146-183`); the
kline fetch and trend analysis are abstracted into the oracle `fetch`
(`None` models a failed fetch or insufficient candles). -/

def mkScoredSignal (fetch : Signal → Option TrendAnalysis)
    (max_allowed_leg : ℕ) (sig : Signal) : ScoredSignal :=
  let analysis := fetch sig
  let sr := score_signal sig analysis max_allowed_leg
  ⟨sig, analysis, sr.1, calculate_rr_ratio sig, sr.2⟩

/-- Embeds `signal_scorer.score_signals_batch`: score every signal, then
sort by score descending (stable). -/

def score_signals_batch (signals : List Signal)
    (fetch : Signal → Option TrendAnalysis) (max_allowed_leg : ℕ) :
    List ScoredSignal :=
  sortByScoreDesc (signals.map (mkScoredSignal fetch max_allowed_leg))

/-- The validity filter of `select_best_signals` (`signal_scorer.py:216`):
no skip reason and strictly positive score. -/

def selectValid (s : ScoredSignal) : Bool :=
  s.skip_reason.isNone && decide (0 < s.score)

/-- Embeds `signal_scorer.select_best_signals`: filter to valid scored
signals, take the first `max_count`, return the raw signals. -/

def select_best_signals (scored : List ScoredSignal) (max_count : ℕ) :
    List Signal :=
  (((scored.filter selectValid).take max_count).map (fun s => s.signal))

/-- Claim-side definition, following the spec's words for C6: keep exactly
the signals with score > 0 and no skip reason, sorted descending by score
with ties in arrival order, and return at most the first `max_count`. -/

def selectionSpec (signals : List Signal)
    (fetch : Signal → Option TrendAnalysis) (max_allowed_leg max_count : ℕ) :
    List Signal :=
  (((sortByScoreDesc ((signals.map (mkScoredSignal fetch max_allowed_leg)).filter
      selectValid)).take max_count).map (fun s => s.signal))

/-- Concrete signal for the C5 witness: long at 100, TP1 110, SL 90,
so the risk/reward ratio is 1. -/

def sigC5 : Signal := ⟨"ETHUSDT", .buy, 100, [110], [], some 90⟩

/-- Concrete analysis for the C5 witness: uptrend, leg 2, in pullback,
recommendation VALID. -/

def anaC5 : TrendAnalysis := ⟨.up, 2, true, [], "VALID", "Good entry"⟩

/-- Concrete signal for C10: a buy whose first take-profit 95 lies BELOW
the entry 100, with SL 90, so reward = −5 against risk = 10. -/

def sigC10 : Signal := ⟨"SOLUSDT", .buy, 100, [95], [], some 90⟩

/-- Concrete analysis for C10: uptrend leg 3, not in pullback,
recommendation LATE — a tradeable non-SKIP analysis. -/

def anaC10 : TrendAnalysis := ⟨.up, 3, false, [], "LATE", "Caution"⟩

/-! ### Sorting lemmas for C6 -/

/-- Descending score order between scored signals. -/

def scoreGE (a b : ScoredSignal) : Prop := b.score ≤ a.score

/-! ### Trade records and the signal-update handler (`main.py`)

A trade record as created at `main.py:551-572` and mutated by the
signal-update checker, the pending-entry monitor and the entry-fill
fallback.  Timestamps are rationals (Unix seconds).  Note: the record
stores `order_side`/`pos_side` but NO `"side"` key — the cap-clamp code
at `main.py:229` reads `tr.get("side")`, which is therefore always
`None`, so the clamp always uses the long formula `entry * (1 - cap)`. -/

structure Trade where
  symbol : String
  order_side : Side
  status : Status
  trigger : ℚ
  entry_price : Option ℚ
  tp_prices : List ℚ
  dca_prices : List ℚ
  sl_price : Option ℚ
  sl_moved_to_be : Bool
  post_orders_placed : Bool
  dca_orders_placed : Bool
  entry_order_id : Option String
  exit_reason : Option String
  closed_ts : Option ℚ
  filled_ts : Option ℚ
  peak_price_seen : Option ℚ
  discord_msg_id : Option ℕ
deriving DecidableEq, Repr

/-- The relevant content of a re-fetched Discord message for one trade:
whether the text announces cancellation (`"TRADE CANCELLED"` /
`"CLOSED WITHOUT ENTRY"`, `main.py:159`), and the `parse_signal_update`
output (`sl_price`, `tp_prices`, `dca_prices`). -/

structure SignalUpdate where
  cancelled : Bool
  sl_price : Option ℚ
  tp_prices : List ℚ
  dca_prices : List ℚ
deriving DecidableEq, Repr

/-- Exchange-side actions the signal-update handler can issue for one
trade: a best-effort entry-order cancel, a cancel of all TP/DCA orders,
a live stop-loss move (`engine._move_sl`), a TP-order replace, a DCA
placement. -/

structure UpdateActions where
  cancelledEntryAttempt : Bool
  cancelledAllOrders : Bool
  movedSlTo : Option ℚ
  replacedTpOrders : Bool
  placedDcaOrders : Bool
deriving DecidableEq, Repr

/-- No exchange action. -/

def noActions : UpdateActions := ⟨false, false, none, false, false⟩

/-- Embeds `entry = tr.get("trigger") or tr.get("entry_price")` together
with Python truthiness (`main.py:203`): a zero or missing value falls
through, and a falsy final value means "no entry" for the distance
computation and the cap guard. -/

def effectiveEntry (tr : Trade) : Option ℚ :=
  if tr.trigger ≠ 0 then some tr.trigger
  else match tr.entry_price with
    | some e => if e ≠ 0 then some e else none
    | none => none

/-- Embeds `sl_distance = abs(float(new_sl) - float(entry)) / float(entry)
* 100 if entry else 0` (`main.py:204`). -/

def slDistancePct (tr : Trade) (nsl : ℚ) : ℚ :=
  match effectiveEntry tr with
  | some e => |nsl - e| / e * 100
  | none => 0

/-- Embeds the cap clamp at `main.py:226-234`.  Because the trade record
has no `"side"` key (it stores `order_side`), `tr.get("side") == "Sell"`
is always false and the long formula `entry * (1 - cap/100)` is used. -/

def capClampedSl (tr : Trade) (capSl : ℚ) (nsl : ℚ) : ℚ :=
  match effectiveEntry tr with
  | some e => e * (1 - capSl / 100)
  | none => nsl

/-- Embeds the TP/DCA tail of the per-trade signal-update body
(`main.py:244-277`), entered when the stop-loss section did not
`continue` out.  `is_open` is the flag computed at `main.py:198` from the
status BEFORE any update.  `engine.update_tp_orders` replaces the TP
orders on the exchange (recorded as an action; the engine is outside
`src/`); the saved-for-later branch writes the trade's `tp_prices`. -/

def applyTpDcaUpdate (tr : Trade) (upd : SignalUpdate) (acts : UpdateActions)
    (is_open : Bool) : Trade × UpdateActions :=
  let new_tps := upd.tp_prices
  let old_tps := tr.tp_prices
  let tps_changed : Bool :=
    ¬ new_tps.isEmpty &&
      (if new_tps.length ≠ old_tps.length then true
       else (new_tps.zip old_tps).any
         (fun pr => decide ((1 : ℚ)/10000000 < |pr.1 - pr.2|)))
  let step1 : Trade × UpdateActions :=
    if tps_changed then
      if is_open && tr.post_orders_placed then
        (tr, { acts with replacedTpOrders := true })
      else
        ({ tr with tp_prices := new_tps }, acts)
    else (tr, acts)
  let tr2 := step1.1
  let acts2 := step1.2
  if ¬ upd.dca_prices.isEmpty && tr2.dca_prices.isEmpty then
    let tr3 := { tr2 with dca_prices := upd.dca_prices }
    if is_open && ¬ tr2.dca_orders_placed then
      (tr3, { acts2 with placedDcaOrders := true })
    else (tr3, acts2)
  else (tr2, acts2)

/-- Embeds the per-trade body of `check_signal_updates` (`main.py:138-277`):
the active-trade selection filter, the cancelled-signal branch, the
stop-loss update with the `MAX_SL_DISTANCE_PCT` hard cap and the
`CAP_SL_DISTANCE_PCT` soft clamp (the hard-cap branch `continue`s past
the TP/DCA handling), then the TP and DCA updates. -/

def applySignalUpdate (tr : Trade) (upd : SignalUpdate)
    (maxSl capSl now : ℚ) : Trade × UpdateActions :=
  if ¬ (tr.status = .pending ∨ tr.status = .opened) ∨ tr.discord_msg_id = none then
    (tr, noActions)
  else if upd.cancelled then
    ({ tr with status := .cancelled, exit_reason := some "signal_cancelled",
               closed_ts := some now },
     { noActions with
        cancelledEntryAttempt :=
          decide (tr.status = .pending ∧ tr.entry_order_id ≠ none ∧
            tr.entry_order_id ≠ some "DRY_RUN"),
        cancelledAllOrders := decide (tr.status = .opened) })
  else
    let is_open : Bool := tr.status = .opened
    match upd.sl_price with
    | some nsl =>
      if nsl ≠ 0 ∧ some nsl ≠ tr.sl_price ∧ tr.sl_moved_to_be = false then
        let dist := slDistancePct tr nsl
        if 0 < maxSl ∧ maxSl < dist then
          if is_open = false then
            ({ tr with status := .cancelled, exit_reason := some "sl_too_far",
                       closed_ts := some now },
             { noActions with cancelledEntryAttempt := true })
          else
            ({ tr with sl_price := some nsl }, noActions)
        else
          let nsl2 := if 0 < capSl ∧ (effectiveEntry tr).isSome ∧ capSl < dist
                      then capClampedSl tr capSl nsl else nsl
          let tr2 := { tr with sl_price := some nsl2 }
          let acts := if is_open then { noActions with movedSlTo := some nsl2 }
                      else noActions
          applyTpDcaUpdate tr2 upd acts is_open
      else applyTpDcaUpdate tr upd noActions is_open
    | none => applyTpDcaUpdate tr upd noActions is_open

/-! ### Pending-entry monitor and entry-fill fallback (`main.py`) -/

/-- Embeds the peak-price tracking of `pending_entry_monitor`
(`main.py:344-355`): for a Buy the default peak is `0` and the maximum
of peak and current price is kept; for a Sell the default is
`float('inf')` — any first price replaces it — and the minimum is kept. -/

def updatedPeak (tr : Trade) (current : ℚ) : ℚ :=
  match tr.order_side with
  | .buy =>
    let p0 := tr.peak_price_seen.getD 0
    if p0 < current then current else p0
  | .sell =>
    match tr.peak_price_seen with
    | none => current
    | some p0 => if current < p0 then current else p0

/-- Embeds one pass of `pending_entry_monitor` for one trade
(`main.py:314-375`): only pending trades with a non-empty TP list are
examined; the peak is updated from the fetched price; if the peak has
crossed TP1 in the entry's favor the entry order is cancelled
(best-effort, only when an order id other than `"DRY_RUN"` is present —
the returned Boolean records that a cancel was issued) and the status is
set to `cancelled_past_tp`. -/

def monitorStep (tr : Trade) (current : ℚ) : Trade × Bool :=
  if tr.status ≠ .pending then (tr, false)
  else match tr.tp_prices with
    | [] => (tr, false)
    | tp1 :: _ =>
      let peak := updatedPeak tr current
      let tr1 := { tr with peak_price_seen := some peak }
      let should_cancel : Bool := match tr.order_side with
        | .buy => tp1 ≤ peak
        | .sell => peak ≤ tp1
      if should_cancel then
        ({ tr1 with status := .cancelledPastTp },
         decide (tr.entry_order_id ≠ none ∧
           tr.entry_order_id ≠ some "DRY_RUN"))
      else (tr1, false)

/-- Embeds the entry-fill fallback polling step of the main loop
(`main.py:420-428`): a pending trade whose exchange-reported position
size and average price are positive becomes `open`. -/

def fillPollStep (tr : Trade) (sz avg now : ℚ) : Trade :=
  if tr.status = .pending ∧ 0 < sz ∧ 0 < avg then
    { tr with status := .opened, entry_price := some avg,
              filled_ts := some now }
  else tr

/-! ### Theorems for C1 -/

/-- Concrete open trade for the C1 counterexample: long, entry 100,
current stop 95, untouched break-even flag, live order id present. -/

def trC1 : Trade :=
  { symbol := "BTCUSDT", order_side := .buy, status := .opened,
    trigger := 100, entry_price := some 100, tp_prices := [], dca_prices := [],
    sl_price := some 95, sl_moved_to_be := false, post_orders_placed := true,
    dca_orders_placed := false, entry_order_id := some "oid1",
    exit_reason := none, closed_ts := none, filled_ts := none,
    peak_price_seen := none, discord_msg_id := some 1 }

/-- Concrete signal update for C1: stop-loss moved to 50, i.e. 50% from
the entry of 100 — far beyond a hard cap of 10%. -/

def updC1 : SignalUpdate := ⟨false, some 50, [], []⟩

/-- Concrete pending trade for the C1 witness: identical to the open
trade of the counterexample but still pending. -/

def trC1p : Trade := { trC1 with status := .pending }

/-- Concrete pending long trade for the C4 witness: TP1 at 105, live
order id present, no peak seen yet. -/

def trC4 : Trade :=
  { symbol := "XRPUSDT", order_side := .buy, status := .pending,
    trigger := 100, entry_price := none, tp_prices := [105, 110],
    dca_prices := [], sl_price := some 95, sl_moved_to_be := false,
    post_orders_placed := false, dca_orders_placed := false,
    entry_order_id := some "oid4", exit_reason := none, closed_ts := none,
    filled_ts := none, peak_price_seen := none, discord_msg_id := some 4 }

/-! ### Trend analysis pipeline (`trend_analysis.py`) -/

/-- True ranges of consecutive candles, oldest-first, starting from the
second candle (`trend_analysis.py:48-59`): each range is the maximum of
high−low, |high−prevClose| and |low−prevClose|. -/

def trueRangesAux (prev : Candle) : List Candle → List ℚ
  | [] => []
  | c :: rest =>
    max (c.high - c.low)
      (max (abs (c.high - prev.close)) (abs (c.low - prev.close))) ::
      trueRangesAux c rest

/-- True-range list of an oldest-first candle list. -/

def trueRanges : List Candle → List ℚ
  | [] => []
  | c :: rest => trueRangesAux c rest

/-- Embeds `trend_analysis.calculate_atr` (`trend_analysis.py:27-64`):
with fewer than `period+1` candles, the mean high−low range of the
newest 10 candles (or 0 for no candles); otherwise the mean of the last
`period` true ranges of the reversed (oldest-first) list. -/

def calculate_atr (candles : List Candle) (period : ℕ := 14) : ℚ :=
  if candles.length < period + 1 then
    match candles with
    | [] => 0
    | _ :: _ =>
      let ranges := (candles.take (min 10 candles.length)).map
        (fun c => c.high - c.low)
      if ranges.isEmpty then 0 else ranges.sum / ranges.length
  else
    let true_ranges := trueRanges candles.reverse
    if period ≤ true_ranges.length then
      (true_ranges.drop (true_ranges.length - period)).sum / period
    else if true_ranges.isEmpty then 0
    else true_ranges.sum / true_ranges.length

/-- Out-of-range default candle; `detect_swing_points` only indexes
inside the list (the index filter guarantees it), so the default is
never read. -/

def dummyCandle : Candle := ⟨0, 0, 0, 0⟩

/-- Candle at position `i` of an oldest-first list. -/

def candleAt (cs : List Candle) (i : ℕ) : Candle := cs.getD i dummyCandle

/-- Swing-high test at index `i` (`trend_analysis.py:121-129`): the high
strictly exceeds the highs of the `lookback` candles on each side. -/

def isSwingHigh (cs : List Candle) (i lookback : ℕ) : Bool :=
  (List.range (2 * lookback + 1)).all (fun k =>
    let j := i - lookback + k
    j == i || decide ((candleAt cs j).high < (candleAt cs i).high))

/-- Swing-low test at index `i` (`trend_analysis.py:131-137`). -/

def isSwingLow (cs : List Candle) (i lookback : ℕ) : Bool :=
  (List.range (2 * lookback + 1)).all (fun k =>
    let j := i - lookback + k
    j == i || decide ((candleAt cs i).low < (candleAt cs j).low))

/-- Embeds `trend_analysis.detect_swing_points` (`trend_analysis.py:97-156`):
the newest-first candles are reversed, every index with `lookback`
candles on each side is tested, and a swing-high entry precedes a
swing-low entry at the same index.  The construction is already in index
order, so the source's final stable sort by index is the identity. -/

def detect_swing_points (candles : List Candle) (lookback : ℕ := 5) :
    List SwingPoint :=
  let cs := candles.reverse
  ((List.range cs.length).filter
      (fun i => lookback ≤ i ∧ i + lookback < cs.length)).flatMap (fun i =>
    (if isSwingHigh cs i lookback then
      [⟨i, (candleAt cs i).high, (candleAt cs i).timestamp, true⟩] else []) ++
    (if isSwingLow cs i lookback then
      [⟨i, (candleAt cs i).low, (candleAt cs i).timestamp, false⟩] else []))

/-- The nearest earlier swing of the opposite type
(`trend_analysis.py:189-194`). -/

def prevOppositeSwing (swings : List SwingPoint) (i : ℕ) (isH : Bool) :
    Option SwingPoint :=
  ((swings.take i).reverse).find? (fun s => s.is_high ≠ isH)

/-- Keep decision of `filter_significant_swings` for the swing at
position `i`: the first swing is always kept, a swing with no earlier
opposite-type swing is kept, and otherwise the move from that swing must
reach `min_move`. -/

def keepSwing (swings : List SwingPoint) (min_move : ℚ) (i : ℕ)
    (sw : SwingPoint) : Bool :=
  if i = 0 then true
  else match prevOppositeSwing swings i sw.is_high with
    | none => true
    | some prev => decide (min_move ≤ abs (sw.price - prev.price))

/-- Embeds `trend_analysis.filter_significant_swings`
(`trend_analysis.py:159-207`). -/

def filter_significant_swings (swings : List SwingPoint) (atr : ℚ)
    (min_swing_atr : ℚ := 3/2) : List SwingPoint :=
  if swings.isEmpty || decide (atr ≤ 0) then swings
  else
    let min_move := atr * min_swing_atr
    (swings.enum.filter (fun p => keepSwing swings min_move p.1 p.2)).map
      Prod.snd

/-- Labelling pass shared by `classify_swing_sequence` and
`count_significant_legs` (`trend_analysis.py:319-341` and `492-510`):
each swing is labelled HH/LH (highs) or HL/LL (lows) relative to the
previous swing of the same type, with bare `H`/`L` for the first of each
type. -/

def swingLabelsAux : Option ℚ → Option ℚ → List SwingPoint → List String
  | _, _, [] => []
  | lastH, lastL, sw :: rest =>
    if sw.is_high then
      match lastH with
      | some h =>
        (if h < sw.price then "HH" else "LH") ::
          swingLabelsAux (some sw.price) lastL rest
      | none => "H" :: swingLabelsAux (some sw.price) lastL rest
    else
      match lastL with
      | some l =>
        (if l < sw.price then "HL" else "LL") ::
          swingLabelsAux lastH (some sw.price) rest
      | none => "L" :: swingLabelsAux lastH (some sw.price) rest

/-- Embeds `trend_analysis.classify_swing_sequence`
(`trend_analysis.py:297-360`): label the swings, then classify from the
counts over the last 8 labels. -/

def classify_swing_sequence (swings : List SwingPoint) :
    TrendDirection × List String :=
  if swings.length < 4 then (.neutral, [])
  else
    let labels := swingLabelsAux none none swings
    let recent := labels.drop (labels.length - 8)
    let hh := recent.count "HH"
    let hl := recent.count "HL"
    let lh := recent.count "LH"
    let ll := recent.count "LL"
    if lh + ll < hh + hl ∧ 1 ≤ hh ∧ 1 ≤ hl then (.up, labels)
    else if hh + hl < lh + ll ∧ 1 ≤ lh ∧ 1 ≤ ll then (.down, labels)
    else (.neutral, labels)

/-- Uptrend arm of the reversal walk (`trend_analysis.py:241-257`):
scan the (swing, label) pairs, tracking the last low; when a low sits
more than `minRev` above the tracked one, stop at the tracked low's
position.  Returns 0 when the walk never breaks. -/

def findReversalUpAux (minRev : ℚ) :
    Option ℚ → ℕ → ℕ → List (SwingPoint × String) → ℕ
  | _, _, _, [] => 0
  | lastLow, lastIdx, i, (sw, _) :: rest =>
    if sw.is_high then findReversalUpAux minRev lastLow lastIdx (i+1) rest
    else match lastLow with
      | some v =>
        if v + minRev < sw.price then lastIdx
        else findReversalUpAux minRev (some sw.price) i (i+1) rest
      | none => findReversalUpAux minRev (some sw.price) i (i+1) rest

/-- Downtrend arm of the reversal walk (`trend_analysis.py:268-283`). -/

def findReversalDownAux (minRev : ℚ) :
    Option ℚ → ℕ → ℕ → List (SwingPoint × String) → ℕ
  | _, _, _, [] => 0
  | lastHigh, lastIdx, i, (sw, _) :: rest =>
    if sw.is_high then
      match lastHigh with
      | some v =>
        if sw.price < v - minRev then lastIdx
        else findReversalDownAux minRev (some sw.price) i (i+1) rest
      | none => findReversalDownAux minRev (some sw.price) i (i+1) rest
    else findReversalDownAux minRev lastHigh lastIdx (i+1) rest

/-- Position after the LAST occurrence of a label, or 0 when absent
(the fallback loops at `trend_analysis.py:260-264` and `286-290`). -/

def lastIdxSucc (labels : List String) (lab : String) : ℕ :=
  match labels.reverse.findIdx? (fun s => s == lab) with
  | some k => labels.length - k
  | none => 0

/-- Embeds `trend_analysis.find_major_trend_reversal`
(`trend_analysis.py:210-294`).  A walk result of 0 (no break, or a break
at position 0) falls back to the position after the last `LL` (uptrend)
or `HH` (downtrend); the result is clamped to the last label index. -/

def find_major_trend_reversal (swings : List SwingPoint)
    (labels : List String) (direction : TrendDirection) (atr : ℚ)
    (min_reversal_atr : ℚ := 3) : ℕ :=
  if labels.isEmpty || swings.isEmpty || decide (direction = .neutral) then 0
  else
    let minRev := atr * min_reversal_atr
    match direction with
    | .up =>
      let best := findReversalUpAux minRev none 0 0 (swings.zip labels)
      let best2 := if best = 0 then lastIdxSucc labels "LL" else best
      min best2 (labels.length - 1)
    | .down =>
      let best := findReversalDownAux minRev none 0 0 (swings.zip labels)
      let best2 := if best = 0 then lastIdxSucc labels "HH" else best
      min best2 (labels.length - 1)
    | .neutral => 0

/-- Leg counting over the labels past the reversal point
(`trend_analysis.py:523-537`): each favorable label (`HH` up / `LL`
down) increments the leg count and clears the pullback flag; each
opposing label (`HL` / `LH`) sets it. -/

def countLegsLabels (relevant : List String) (favorable pullLab : String) :
    ℕ × Bool :=
  relevant.foldl (fun st lab =>
    if lab = favorable then (st.1 + 1, false)
    else if lab = pullLab then (st.1, true)
    else st) (0, false)

/-- Embeds `trend_analysis.count_significant_legs`
(`trend_analysis.py:456-543`): re-filter to significant swings, re-label
them, find the major reversal, count legs from there, and floor the leg
count at 1 once any labels remain past the reversal. -/

def count_significant_legs (swings : List SwingPoint) (labels : List String)
    (direction : TrendDirection) (atr : ℚ) (min_swing_atr : ℚ := 3/2)
    (min_reversal_atr : ℚ := 3) : ℕ × Bool × ℕ × List String :=
  if labels.isEmpty || decide (direction = .neutral) then (0, false, 0, [])
  else
    let significant := filter_significant_swings swings atr min_swing_atr
    let sig_labels := swingLabelsAux none none significant
    let idx := find_major_trend_reversal significant sig_labels direction atr
      min_reversal_atr
    let relevant := if idx < sig_labels.length then sig_labels.drop idx else []
    let lc := match direction with
      | .up => countLegsLabels relevant "HH" "HL"
      | .down => countLegsLabels relevant "LL" "LH"
      | .neutral => ((0 : ℕ), false)
    let legs := if lc.1 = 0 ∧ relevant ≠ [] then 1 else lc.1
    (legs, lc.2, idx, relevant)

/-- Embeds `trend_analysis.analyze_trend` (`trend_analysis.py:546-688`):
ATR, swing detection, the `<4`-swings early SKIP, significance filtering
with fallback to all swings, direction classification, leg counting, and
the final recommendation cascade (side mismatch → SKIP; leg beyond bound
→ SKIP; pullback → VALID; leg ≤ 2 → VALID; else LATE). -/

def analyze_trend (candles : List Candle) (signal_side : Side)
    (max_allowed_leg : ℕ := 3) (swing_lookback : ℕ := 5)
    (min_swing_atr : ℚ := 3/2) (min_reversal_atr : ℚ := 3) : TrendAnalysis :=
  let atr := calculate_atr candles 14
  let swings := detect_swing_points candles swing_lookback
  if swings.length < 4 then
    { direction := .neutral, current_leg := 0, is_pullback := false,
      swing_points := swings, recommendation := "SKIP",
      reason := "Not enough swing points (" ++ toString swings.length ++
        ") to determine trend" }
  else
    let significant0 := filter_significant_swings swings atr min_swing_atr
    let significant := if significant0.length < 4 then swings else significant0
    let dl := classify_swing_sequence significant
    let direction := dl.1
    let labels := dl.2
    let cl := count_significant_legs swings labels direction atr min_swing_atr
      min_reversal_atr
    let current_leg := cl.1
    let is_pullback := cl.2.1
    if signal_side = .buy ∧ direction ≠ .up then
      { direction := direction, current_leg := current_leg,
        is_pullback := is_pullback, swing_points := swings,
        recommendation := "SKIP",
        reason := "BUY signal but trend is " ++ dirStr direction ++
          " (need uptrend)" }
    else if signal_side = .sell ∧ direction ≠ .down then
      { direction := direction, current_leg := current_leg,
        is_pullback := is_pullback, swing_points := swings,
        recommendation := "SKIP",
        reason := "SELL signal but trend is " ++ dirStr direction ++
          " (need downtrend)" }
    else if max_allowed_leg < current_leg then
      { direction := direction, current_leg := current_leg,
        is_pullback := is_pullback, swing_points := swings,
        recommendation := "SKIP",
        reason := "Late trend entry - Leg " ++ toString current_leg ++
          " > max allowed " ++ toString max_allowed_leg ++ " (reversal risk)" }
    else if is_pullback then
      { direction := direction, current_leg := current_leg,
        is_pullback := is_pullback, swing_points := swings,
        recommendation := "VALID",
        reason := "Good entry - " ++ dirStr direction ++ " Leg " ++
          toString current_leg ++ " pullback (early trend)" }
    else if current_leg ≤ 2 then
      { direction := direction, current_leg := current_leg,
        is_pullback := is_pullback, swing_points := swings,
        recommendation := "VALID",
        reason := "Acceptable entry - " ++ dirStr direction ++ " Leg " ++
          toString current_leg ++ " (early trend)" }
    else
      { direction := direction, current_leg := current_leg,
        is_pullback := is_pullback, swing_points := swings,
        recommendation := "LATE",
        reason := "Caution - " ++ dirStr direction ++ " Leg " ++
          toString current_leg ++ ", not in pullback (elevated risk)" }

/-- Claim-side definition for C7: does the signal side match the
detected trend direction (buy needs an uptrend, sell a downtrend)? -/

def sideMatchesDirection : Side → TrendDirection → Bool
  | .buy, .up => true
  | .sell, .down => true
  | _, _ => false

/-! ### Theorems for C9 -/

/-- Helper: summing a list after scaling every entry by `c / d`. -/

theorem sum_map_mul_div (l : List ℚ) (c d : ℚ) :
    (l.map (fun x => x * c / d)).sum = l.sum * c / d := by
  induction l with
  | nil => simp
  | cons x xs ih =>
    simp only [List.map_cons, List.sum_cons, ih]
    ring

/-- Claim C9: the TP split configuration is renormalised iff the raw sum
exceeds 100; in that case the result sums to exactly 100, otherwise the
raw values are kept verbatim; hence the effective allocation always sums
to at most 100. -/

theorem c9_tp_splits_renormalization (raw : List ℚ) :
    (100 < raw.sum → (normalizeTpSplits raw).sum = 100) ∧
    (raw.sum ≤ 100 → normalizeTpSplits raw = raw) ∧
    (normalizeTpSplits raw).sum ≤ 100 := by
  have h1 : 100 < raw.sum → (normalizeTpSplits raw).sum = 100 := by
    intro h
    have hs : raw.sum ≠ 0 := by positivity
    simp only [normalizeTpSplits, if_pos h, sum_map_mul_div]
    rw [div_eq_iff hs]
    ring
  have h2 : raw.sum ≤ 100 → normalizeTpSplits raw = raw := by
    intro h
    simp only [normalizeTpSplits, if_neg (not_lt.mpr h)]
  refine ⟨h1, h2, ?_⟩
  by_cases h : 100 < raw.sum
  · exact (h1 h).le
  · rw [h2 (not_lt.mp h)]
    exact not_lt.mp h

/-- Witness for C9 at concrete inputs: `[60, 60]` (sum 120) is rescaled to
sum exactly 100, and `[50, 30]` (sum 80) is kept verbatim. -/

theorem c9_tp_splits_renormalization_witness :
    (normalizeTpSplits [60, 60]).sum = 100 ∧
    normalizeTpSplits [50, 30] = [50, 30] :=
  ⟨(c9_tp_splits_renormalization [60, 60]).1 (by norm_num),
   (c9_tp_splits_renormalization [50, 30]).2.1 (by norm_num)⟩

/-! ### Theorems for C8 -/

set_option maxRecDepth 4000 in

/-- Claim C8 counterexample: the persisted list keeps the last 500 entries
of the unordered set's materialisation, not the most recently seen 500.
With 501 distinct hashes inserted in order `0, 1, …, 500` (tokens stand
for hash strings), `500 :: List.range 500` is a valid materialisation of
the resulting set (a permutation of the distinct insertions), and the
kept entries `[0, …, 499]` drop the most recent hash `500` instead of
the oldest hash `0`. -/

theorem c8_recency_counterexample :
    (List.range 501).Nodup ∧
    (500 :: List.range 500).Perm (List.range 501) ∧
    seenHashesAfterPass (500 :: List.range 500) ≠
      mostRecentKeep 500 (List.range 501) := by
  refine ⟨List.nodup_range _, ?_, ?_⟩
  · rw [List.range_succ, ← List.singleton_append]
    exact List.perm_append_comm
  · have hlen : (500 :: List.range 500).length = 501 := by
      rw [List.length_cons, List.length_range]
    have e1 : (seenHashesAfterPass (500 :: List.range 500)).head? = some 0 := by
      rw [seenHashesAfterPass, hlen]
      norm_num
      rw [List.head?_eq_getElem?, List.getElem?_range (by norm_num)]
    have e2 : (mostRecentKeep 500 (List.range 501)).head? = some 1 := by
      rw [mostRecentKeep, List.length_range,
        show (501 : ℕ) - 500 = 1 from by norm_num, List.head?_drop,
        List.getElem?_range (by norm_num)]
    intro h
    rw [h, e2] at e1
    exact Option.noConfusion e1 (fun h01 => Nat.one_ne_zero h01)

/-- Claim C8 amended: after every ingestion pass the persisted
seen-signal-hash list has at most 500 entries, and those entries form a
suffix of the set's materialisation list; which hashes are dropped
depends on the unordered set's enumeration, not on recency. -/

theorem c8_seen_hashes_cap (m : List String) :
    (seenHashesAfterPass m).length ≤ 500 ∧
    (seenHashesAfterPass m).IsSuffix m := by
  constructor
  · simp only [seenHashesAfterPass, List.length_drop]
    omega
  · exact List.drop_suffix _ _

/-! ### Theorems for C3 -/

/-- Claim C3 counterexample: within one control-loop iteration the
entry-fill fallback polling of pending trades (`main.py:420`) runs BEFORE
new-signal ingestion from Discord (`main.py:439`), contradicting the
claimed order (ingestion before fill-detection polling). -/

theorem c3_fill_poll_before_ingestion :
    stepPos .entryFillPoll < stepPos .readFeedAndIngest ∧
    ¬ stepPos .readFeedAndIngest < stepPos .entryFillPoll := by
  decide

/-- Claim C3 amended: within a single control-loop iteration the
maintenance operations (expire pending, cancel past-TP, cleanup closed,
fallback TP-fill check, orphan reconciliation, alerting, stats) run
before the signal-update check, which runs before fill-detection polling
of pending trades, which runs before new-signal ingestion; a second
immediate-fill check runs after ingestion, and the state is saved last. -/

theorem c3_loop_order :
    stepPos .cancelExpiredEntries < stepPos .checkSignalUpdates ∧
    stepPos .cancelEntriesPastTp < stepPos .checkSignalUpdates ∧
    stepPos .cleanupClosedTrades < stepPos .checkSignalUpdates ∧
    stepPos .checkTpFillsFallback < stepPos .checkSignalUpdates ∧
    stepPos .reconcileOrphanedPositions < stepPos .checkSignalUpdates ∧
    stepPos .checkPositionAlerts < stepPos .checkSignalUpdates ∧
    stepPos .logDailyStats < stepPos .checkSignalUpdates ∧
    stepPos .checkSignalUpdates < stepPos .entryFillPoll ∧
    stepPos .entryFillPoll < stepPos .readFeedAndIngest ∧
    stepPos .readFeedAndIngest < stepPos .immediateFillCheck ∧
    stepPos .immediateFillCheck < stepPos .saveStateStep := by
  decide

/-! ### Theorems for C2 -/

/-- Claim C2 counterexample: two signals that agree on symbol, side,
trigger and take-profits but differ in the scale-in (DCA) list receive
the SAME hash under parser version v3, whose hash core omits the DCA
list — while v1 (and v2) do distinguish them.  This refutes the claim
that signals differing only in scale-ins hash differently for every
configured parser version. -/

theorem c2_v3_hash_ignores_dca_counterexample :
    sigDcaA.dca_prices ≠ sigDcaB.dca_prices ∧
    signalHashV3 sigDcaA = signalHashV3 sigDcaB ∧
    signalHashV1 sigDcaA ≠ signalHashV1 sigDcaB := by
  refine ⟨by decide, rfl, by decide⟩

/-- Claim C2 amended: `signal_hash` is stable — signals that agree on
symbol, side, trigger, take-profit list and scale-in list receive the
same hash in every parser version; v1 and v2 always agree with each
other; but the v3 hash is determined by symbol, side, trigger and
take-profits alone, so two signals differing only in the scale-in list
receive the same v3 hash (and are deduplicated as "already handled"). -/

theorem c2_hash_stability (s1 s2 : Signal)
    (hsym : s1.symbol = s2.symbol) (hside : s1.side = s2.side)
    (htr : s1.trigger = s2.trigger) (htp : s1.tp_prices = s2.tp_prices) :
    (s1.dca_prices = s2.dca_prices →
      signalHashV1 s1 = signalHashV1 s2 ∧ signalHashV2 s1 = signalHashV2 s2) ∧
    signalHashV2 s1 = signalHashV1 s1 ∧
    signalHashV3 s1 = signalHashV3 s2 := by
  refine ⟨fun hdca => ?_, rfl, ?_⟩
  · constructor <;> simp [signalHashV1, signalHashV2, hsym, hside, htr, htp, hdca]
  · simp [signalHashV3, hsym, hside, htr, htp]

/-- Witness for C2's amended theorem at concrete signals: equal fields
give equal v1/v2 hashes, and v3 hashes agree even though the DCA lists
differ. -/

theorem c2_hash_stability_witness :
    signalHashV3 sigDcaC = signalHashV3 sigDcaD ∧
    signalHashV2 sigDcaC = signalHashV1 sigDcaC :=
  ⟨(c2_hash_stability sigDcaC sigDcaD rfl rfl rfl rfl).2.2,
   (c2_hash_stability sigDcaC sigDcaD rfl rfl rfl rfl).2.1⟩

/-! ### Theorems for C5 and C10 -/

/-- Helper: a string starting with the literal `"Leg "` is non-empty. -/

theorem leg_msg_ne_empty (t : String) : ("Leg " ++ t) ≠ "" := by
  intro h
  have hd := congrArg String.data h
  rw [String.data_append] at hd
  simp at hd

/-- Helper: appending to a non-empty string stays non-empty. -/
theorem string_append_ne_empty (s t : String) (hs : s ≠ "") :
    (s ++ t) ≠ "" := by
  intro h
  apply hs
  have hd := congrArg String.data h
  rw [String.data_append] at hd
  rcases List.append_eq_nil.mp hd with ⟨h1, -⟩
  exact String.ext (by rw [h1])

/-- Every analysis produced by `analyze_trend` carries a non-empty
reason: each branch's reason string starts with a literal prefix. -/
theorem analyze_trend_reason_ne_empty (candles : List Candle) (side : Side)
    (maxLeg lookback : ℕ) (msa mra : ℚ) :
    (analyze_trend candles side maxLeg lookback msa mra).reason ≠ "" := by
  simp only [analyze_trend, apply_ite TrendAnalysis.reason]
  split_ifs <;>
    · repeat apply string_append_ne_empty
      all_goals decide

/-- Claim C5: for a signal with a trend analysis, `score_signal` returns
base 100 plus the leg bonus `(max − leg + 1)·20` when `1 ≤ leg ≤ max`,
plus 15 in pullback, plus `min(rr·10, 30)`, minus 20 when LATE — when the
recommendation is not SKIP and the leg is within the bound; a SKIP
recommendation yields score 0 carrying the analysis' reason (and every
analysis `analyze_trend` produces has a non-empty reason); a leg beyond
the bound yields score 0 with a non-empty reason; and in either zero-score
case the signal fails the selection filter. -/

theorem c5_score_signal_formula (sig : Signal) (a : TrendAnalysis)
    (maxLeg : ℕ) :
    (a.recommendation ≠ "SKIP" → a.current_leg ≤ maxLeg →
      score_signal sig (some a) maxLeg =
        (100 + (if 0 < a.current_leg ∧ a.current_leg ≤ maxLeg
                then ((maxLeg : ℚ) - (a.current_leg : ℚ) + 1) * 20 else 0)
             + (if a.is_pullback then 15 else 0)
             + min (calculate_rr_ratio sig * 10) 30
             - (if a.recommendation = "LATE" then 20 else 0), none)) ∧
    (a.recommendation = "SKIP" →
      score_signal sig (some a) maxLeg = (0, some a.reason)) ∧
    (a.recommendation ≠ "SKIP" → maxLeg < a.current_leg →
      (score_signal sig (some a) maxLeg).1 = 0 ∧
      ∃ r, (score_signal sig (some a) maxLeg).2 = some r ∧ r ≠ "") ∧
    ((score_signal sig (some a) maxLeg).1 = 0 →
      selectValid ⟨sig, some a, (score_signal sig (some a) maxLeg).1,
        calculate_rr_ratio sig, (score_signal sig (some a) maxLeg).2⟩ = false) ∧
    (∀ (cnd : List Candle) (sd : Side) (ml lb : ℕ) (msa mra : ℚ),
      (analyze_trend cnd sd ml lb msa mra).reason ≠ "") := by
  refine ⟨?_, ?_, ?_, ?_, analyze_trend_reason_ne_empty⟩
  · intro hns hle
    simp only [score_signal, if_neg hns]
    by_cases hpos : 0 < a.current_leg ∧ a.current_leg ≤ maxLeg
    · rw [if_pos hpos, if_pos hpos]
      refine Prod.ext ?_ rfl
      split_ifs <;> ring
    · rw [if_neg hpos, if_neg (not_lt.mpr hle), if_neg hpos]
      refine Prod.ext ?_ rfl
      split_ifs <;> ring
  · intro hs
    simp only [score_signal, if_pos hs]
  · intro hns hlt
    have hnpos : ¬ (0 < a.current_leg ∧ a.current_leg ≤ maxLeg) := by
      rintro ⟨-, hle⟩
      exact absurd hlt (not_lt.mpr hle)
    refine ⟨?_, "Leg " ++ toString a.current_leg ++ " > max allowed "
        ++ toString maxLeg, ?_, leg_msg_ne_empty _⟩
    · simp [score_signal, if_neg hns, if_neg hnpos, if_pos hlt]
    · simp [score_signal, if_neg hns, if_neg hnpos, if_pos hlt]
  · intro hz
    simp [selectValid, hz]

/-- Witness for C5 at a concrete input: leg 2 of max 3 gives bonus 40,
pullback gives 15, R:R 1 gives 10, no LATE penalty: score 165. -/

theorem c5_score_signal_formula_witness :
    score_signal sigC5 (some anaC5) 3 = (165, none) := by
  have h := (c5_score_signal_formula sigC5 anaC5 3).1
    (by decide) (by norm_num [anaC5])
  rw [h]
  norm_num [anaC5, sigC5, calculate_rr_ratio]
  decide

/-- Claim C10: for a signal whose entry, stop-loss and first take-profit
are present, risk distance positive, but TP1 on the unfavorable side of
entry, `calculate_rr_ratio` returns a strictly negative ratio, and
`score_signal` adds `min(rr·10, 30)` un-floored, leaving the score
strictly below the 100-point base (here 100 + 20 − 5 − 20 = 95). -/

theorem c10_negative_rr_not_floored :
    calculate_rr_ratio sigC10 = -(1/2) ∧
    calculate_rr_ratio sigC10 < 0 ∧
    score_signal sigC10 (some anaC10) 3 = (95, none) ∧
    (score_signal sigC10 (some anaC10) 3).1 < 100 := by
  have hrr : calculate_rr_ratio sigC10 = -(1/2) := by
    norm_num [calculate_rr_ratio, sigC10]
  have hsc : score_signal sigC10 (some anaC10) 3 = (95, none) := by
    rw [score_signal]
    norm_num [anaC10, hrr]
    decide
  exact ⟨hrr, by rw [hrr]; norm_num, hsc, by rw [hsc]; norm_num⟩

/-- Membership in an insertion. -/

theorem mem_insertByScore {a x : ScoredSignal} {l : List ScoredSignal} :
    a ∈ insertByScore x l ↔ a = x ∨ a ∈ l := by
  induction l with
  | nil => simp [insertByScore]
  | cons y ys ih =>
    by_cases h : x.score ≤ y.score
    · simp only [insertByScore, if_pos h, List.mem_cons, ih]
      tauto
    · simp only [insertByScore, if_neg h, List.mem_cons]

/-- Inserting preserves descending sortedness. -/

theorem pairwise_insertByScore {x : ScoredSignal} {l : List ScoredSignal}
    (hl : l.Pairwise scoreGE) : (insertByScore x l).Pairwise scoreGE := by
  induction l with
  | nil => simp [insertByScore, scoreGE]
  | cons y ys ih =>
    rcases List.pairwise_cons.mp hl with ⟨hy, hys⟩
    by_cases h : x.score ≤ y.score
    · rw [insertByScore, if_pos h]
      refine List.pairwise_cons.mpr ⟨?_, ih hys⟩
      intro z hz
      rcases mem_insertByScore.mp hz with rfl | hz'
      · exact h
      · exact hy z hz'
    · rw [insertByScore, if_neg h]
      refine List.pairwise_cons.mpr ⟨?_, hl⟩
      intro z hz
      rcases List.mem_cons.mp hz with rfl | hz'
      · exact (not_le.mp h).le
      · exact le_trans (hy z hz') (not_le.mp h).le

/-- Folding insertions over a sorted accumulator stays sorted. -/

theorem pairwise_foldl_insertByScore (l : List ScoredSignal) :
    ∀ acc : List ScoredSignal, acc.Pairwise scoreGE →
      (l.foldl (fun acc x => insertByScore x acc) acc).Pairwise scoreGE := by
  induction l with
  | nil => intro acc hacc; simpa using hacc
  | cons x xs ih =>
    intro acc hacc
    exact ih (insertByScore x acc) (pairwise_insertByScore hacc)

/-- The stable sort is descending in score. -/

theorem pairwise_sortByScoreDesc (l : List ScoredSignal) :
    (sortByScoreDesc l).Pairwise scoreGE :=
  pairwise_foldl_insertByScore l [] (by simp)

/-- An insertion is a permutation of consing. -/

theorem insertByScore_perm (x : ScoredSignal) (l : List ScoredSignal) :
    (insertByScore x l).Perm (x :: l) := by
  induction l with
  | nil => exact List.Perm.refl _
  | cons y ys ih =>
    by_cases h : x.score ≤ y.score
    · rw [insertByScore, if_pos h]
      exact ((ih.cons y).trans (List.Perm.swap x y ys))
    · rw [insertByScore, if_neg h]

/-- The fold of insertions permutes the accumulator and the input. -/

theorem foldl_insertByScore_perm (l : List ScoredSignal) :
    ∀ acc : List ScoredSignal,
      (l.foldl (fun acc x => insertByScore x acc) acc).Perm (acc ++ l) := by
  induction l with
  | nil => intro acc; simp
  | cons x xs ih =>
    intro acc
    exact (ih (insertByScore x acc)).trans
      (((insertByScore_perm x acc).append_right xs).trans List.perm_middle.symm)

/-- An insertion lands at the head when every present element scores
strictly below the inserted one. -/

theorem insertByScore_eq_cons {x : ScoredSignal} {l : List ScoredSignal}
    (h : ∀ z ∈ l, z.score < x.score) : insertByScore x l = x :: l := by
  cases l with
  | nil => rfl
  | cons z zs =>
    rw [insertByScore, if_neg (not_le.mpr (h z (List.mem_cons_self z zs)))]

/-- Filtering commutes with a single stable insertion into a
descending-sorted list. -/

theorem filter_insertByScore (p : ScoredSignal → Bool) (x : ScoredSignal) :
    ∀ (l : List ScoredSignal), l.Pairwise scoreGE →
      (insertByScore x l).filter p =
        if p x then insertByScore x (l.filter p) else l.filter p := by
  intro l
  induction l with
  | nil =>
    intro _
    by_cases hx : p x <;> simp [insertByScore, hx]
  | cons y ys ih =>
    intro hl
    rcases List.pairwise_cons.mp hl with ⟨hy, hys⟩
    by_cases h : x.score ≤ y.score
    · rw [insertByScore, if_pos h, List.filter_cons, ih hys]
      by_cases hx : p x <;> by_cases hyp : p y <;>
        simp [hx, hyp, insertByScore, h, List.filter_cons]
    · rw [insertByScore, if_neg h]
      have hallt : ∀ z ∈ List.filter p (y :: ys), z.score < x.score := by
        intro z hz
        rcases List.mem_cons.mp (List.mem_of_mem_filter hz) with rfl | hmem
        · exact not_le.mp h
        · exact lt_of_le_of_lt (hy z hmem) (not_le.mp h)
      rw [List.filter_cons]
      by_cases hx : p x
      · rw [if_pos hx, if_pos hx, insertByScore_eq_cons hallt]
      · rw [if_neg hx, if_neg hx]

/-- Filtering commutes with the insertion fold, provided the accumulator
is sorted. -/

theorem filter_foldl_insertByScore (p : ScoredSignal → Bool) :
    ∀ (l acc : List ScoredSignal), acc.Pairwise scoreGE →
      (l.foldl (fun acc x => insertByScore x acc) acc).filter p =
        (l.filter p).foldl (fun acc x => insertByScore x acc) (acc.filter p) := by
  intro l
  induction l with
  | nil => intro acc _; rfl
  | cons x xs ih =>
    intro acc hacc
    rw [List.foldl_cons, ih (insertByScore x acc) (pairwise_insertByScore hacc),
      filter_insertByScore p x acc hacc, List.filter_cons]
    by_cases hx : p x <;> simp [hx]

/-- Filtering commutes with the stable sort: sorting then filtering equals
filtering then sorting. -/

theorem filter_sortByScoreDesc (p : ScoredSignal → Bool) (l : List ScoredSignal) :
    (sortByScoreDesc l).filter p = sortByScoreDesc (l.filter p) := by
  rw [sortByScoreDesc, filter_foldl_insertByScore p l [] (by simp)]
  rfl

/-- Stability of a single insertion: among the elements of one fixed
score `c`, an inserted element of score `c` lands last, and other
insertions do not disturb them. -/

theorem filter_score_insertByScore (c : ℚ) (x : ScoredSignal) :
    ∀ (l : List ScoredSignal), l.Pairwise scoreGE →
      (insertByScore x l).filter (fun s => decide (s.score = c)) =
        if x.score = c
        then l.filter (fun s => decide (s.score = c)) ++ [x]
        else l.filter (fun s => decide (s.score = c)) := by
  intro l
  induction l with
  | nil =>
    intro _
    by_cases hx : x.score = c <;> simp [insertByScore, hx]
  | cons y ys ih =>
    intro hl
    rcases List.pairwise_cons.mp hl with ⟨hy, hys⟩
    by_cases h : x.score ≤ y.score
    · rw [insertByScore, if_pos h, List.filter_cons, ih hys]
      by_cases hx : x.score = c <;> by_cases hyc : y.score = c <;>
        simp [hx, hyc, List.filter_cons]
    · rw [insertByScore, if_neg h]
      have hlt : y.score < x.score := not_le.mp h
      by_cases hx : x.score = c
      · have hnone :
            List.filter (fun s => decide (s.score = c)) (y :: ys) = [] := by
          rw [List.filter_eq_nil_iff]
          intro z hz
          rcases List.mem_cons.mp hz with rfl | hmem
          · simp only [decide_eq_true_eq]
            exact ne_of_lt (hx ▸ hlt)
          · simp only [decide_eq_true_eq]
            exact ne_of_lt (hx ▸ lt_of_le_of_lt (hy z hmem) hlt)
        rw [List.filter_cons, hnone]
        simp [hx]
      · simp [List.filter_cons, hx]

/-- Stability of the insertion fold on the elements of one fixed score. -/

theorem filter_score_foldl_insertByScore (c : ℚ) :
    ∀ (l acc : List ScoredSignal), acc.Pairwise scoreGE →
      (l.foldl (fun acc x => insertByScore x acc) acc).filter
          (fun s => decide (s.score = c)) =
        acc.filter (fun s => decide (s.score = c)) ++
          l.filter (fun s => decide (s.score = c)) := by
  intro l
  induction l with
  | nil => intro acc _; simp
  | cons x xs ih =>
    intro acc hacc
    rw [List.foldl_cons, ih (insertByScore x acc) (pairwise_insertByScore hacc),
      filter_score_insertByScore c x acc hacc, List.filter_cons]
    by_cases hx : x.score = c <;> simp [hx]

/-- Stability of the stable sort: the elements of any fixed score appear
in the sorted output in exactly their original arrival order. -/

theorem sortByScoreDesc_stable (c : ℚ) (l : List ScoredSignal) :
    (sortByScoreDesc l).filter (fun s => decide (s.score = c)) =
      l.filter (fun s => decide (s.score = c)) := by
  rw [sortByScoreDesc, filter_score_foldl_insertByScore c l [] (by simp)]
  rfl

/-- Claim C6: selection from a scored batch keeps exactly the signals
with positive score and no skip reason (the sorted batch is a permutation
of the per-signal scores, and filtering it equals sorting the filtered
scores), sorted descending by score with ties in original arrival order
(stability: the elements of any fixed score keep their input order), and
returns at most the first `maxCount` of them.  Being a pure function of
the input list, the selection is deterministic. -/

theorem c6_selection_spec (signals : List Signal)
    (fetch : Signal → Option TrendAnalysis) (maxLeg maxCount : ℕ) :
    select_best_signals (score_signals_batch signals fetch maxLeg) maxCount =
      selectionSpec signals fetch maxLeg maxCount ∧
    (score_signals_batch signals fetch maxLeg).Perm
      (signals.map (mkScoredSignal fetch maxLeg)) ∧
    (score_signals_batch signals fetch maxLeg).Pairwise scoreGE ∧
    (∀ c : ℚ,
      (score_signals_batch signals fetch maxLeg).filter
          (fun s => decide (s.score = c)) =
        (signals.map (mkScoredSignal fetch maxLeg)).filter
          (fun s => decide (s.score = c))) ∧
    (select_best_signals (score_signals_batch signals fetch maxLeg)
        maxCount).length ≤ maxCount := by
  refine ⟨?_, ?_, ?_, ?_, ?_⟩
  · rw [select_best_signals, selectionSpec, score_signals_batch,
      filter_sortByScoreDesc]
  · exact foldl_insertByScore_perm _ []
  · exact pairwise_sortByScoreDesc _
  · intro c
    exact sortByScoreDesc_stable c _
  · rw [select_best_signals, List.length_map, List.length_take]
    exact min_le_left _ _

/-- Claim C1 counterexample: an OPEN trade receiving a stop-loss update
whose distance (50%) exceeds the hard cap `MAX_SL_DISTANCE_PCT = 10` is
NOT cancelled: the handler keeps the status `open`, sets no exit reason,
stores the new stop value, and issues neither a stop move nor an entry
cancel (`main.py:219-222` only logs a warning for open trades; the
cancel-with-`sl_too_far` branch is reserved for pending trades). -/

theorem c1_open_trade_not_cancelled_counterexample :
    slDistancePct trC1 50 = 50 ∧
    (applySignalUpdate trC1 updC1 10 0 0).1.status = .opened ∧
    (applySignalUpdate trC1 updC1 10 0 0).1.exit_reason = none ∧
    (applySignalUpdate trC1 updC1 10 0 0).1.sl_price = some 50 ∧
    (applySignalUpdate trC1 updC1 10 0 0).2 = noActions := by
  have hdist : slDistancePct trC1 50 = 50 := by
    norm_num [slDistancePct, effectiveEntry, trC1]
  have h1 : trC1.status = .opened := rfl
  have h2 : trC1.discord_msg_id = some 1 := rfl
  have h3 : trC1.sl_price = some 95 := rfl
  have h4 : trC1.sl_moved_to_be = false := rfl
  have h5 : trC1.exit_reason = none := rfl
  have h6 : updC1.cancelled = false := rfl
  have h7 : updC1.sl_price = some 50 := rfl
  refine ⟨hdist, ?_, ?_, ?_, ?_⟩ <;>
    simp [applySignalUpdate, h1, h2, h3, h4, h5, h6, h7, hdist] <;>
      norm_num

/-- Claim C1 amended: when a pending-or-open trade receives a stop-loss
update that passes the update guard (new, non-zero, break-even flag not
set) and whose distance from entry exceeds the positive hard cap
`MAX_SL_DISTANCE_PCT`, then: a PENDING trade is cancelled with exit
reason `"sl_too_far"` and a best-effort entry cancel, and no live stop
order is created or moved; an OPEN trade keeps its status and exit
reason, stores the new stop value, and likewise no live stop order is
moved and no entry cancel is issued. -/

theorem c1_sl_too_far_cancels_pending_only (tr : Trade) (upd : SignalUpdate)
    (maxSl capSl now nsl : ℚ)
    (hmsg : tr.discord_msg_id ≠ none)
    (hcanc : upd.cancelled = false)
    (hsl : upd.sl_price = some nsl) (hnz : nsl ≠ 0)
    (hne : some nsl ≠ tr.sl_price) (hbe : tr.sl_moved_to_be = false)
    (hmax : 0 < maxSl) (hfar : maxSl < slDistancePct tr nsl) :
    (tr.status = .pending →
      (applySignalUpdate tr upd maxSl capSl now).1.status = .cancelled ∧
      (applySignalUpdate tr upd maxSl capSl now).1.exit_reason =
        some "sl_too_far" ∧
      (applySignalUpdate tr upd maxSl capSl now).2.cancelledEntryAttempt = true ∧
      (applySignalUpdate tr upd maxSl capSl now).2.movedSlTo = none) ∧
    (tr.status = .opened →
      (applySignalUpdate tr upd maxSl capSl now).1.status = .opened ∧
      (applySignalUpdate tr upd maxSl capSl now).1.exit_reason = tr.exit_reason ∧
      (applySignalUpdate tr upd maxSl capSl now).1.sl_price = some nsl ∧
      (applySignalUpdate tr upd maxSl capSl now).2.movedSlTo = none ∧
      (applySignalUpdate tr upd maxSl capSl now).2.cancelledEntryAttempt =
        false) := by
  constructor
  · intro hp
    refine ⟨?_, ?_, ?_, ?_⟩ <;>
      simp [applySignalUpdate, noActions, hp, hmsg, hcanc, hsl, hnz, hne, hbe, hmax, hfar]
  · intro hp
    refine ⟨?_, ?_, ?_, ?_, ?_⟩ <;>
      simp [applySignalUpdate, noActions, hp, hmsg, hcanc, hsl, hnz, hne, hbe, hmax, hfar]

/-- Witness for C1's amended theorem: the pending twin of the
counterexample trade is cancelled with reason `"sl_too_far"`, with a
best-effort entry cancel and no stop move. -/

theorem c1_sl_too_far_cancels_pending_only_witness :
    (applySignalUpdate trC1p updC1 10 0 0).1.status = .cancelled ∧
    (applySignalUpdate trC1p updC1 10 0 0).1.exit_reason = some "sl_too_far" ∧
    (applySignalUpdate trC1p updC1 10 0 0).2.cancelledEntryAttempt = true ∧
    (applySignalUpdate trC1p updC1 10 0 0).2.movedSlTo = none :=
  (c1_sl_too_far_cancels_pending_only trC1p updC1 10 0 0 50
    (by decide) rfl rfl (by norm_num) (by decide) rfl (by norm_num)
    (by norm_num [slDistancePct, effectiveEntry, trC1p, trC1])).1 rfl

/-! ### Theorems for C4 -/

/-- Claim C4: a pending trade with a non-empty TP list whose tracked
peak has crossed TP1 in the entry's favor is, on the monitor pass that
observes this, moved to the terminal status `cancelled_past_tp`, with
its entry order cancelled (a real order id being present); and no later
operation of the program moves a trade out of that status: the monitor,
the entry-fill poll and the signal-update handler all leave such a trade
unchanged, and any engine operation that — per the spec's guarded-state
rule, `trade_engine.py` itself not being under `src/` — acts only on
pending/open trades fixes it as well. -/

theorem c4_past_tp_terminal (tr : Trade) (price tp1 : ℚ) (rest : List ℚ)
    (oid : String)
    (hs : tr.status = .pending)
    (htp : tr.tp_prices = tp1 :: rest)
    (hbuy : tr.order_side = .buy → tp1 ≤ updatedPeak tr price)
    (hsell : tr.order_side = .sell → updatedPeak tr price ≤ tp1)
    (hoid : tr.entry_order_id = some oid) (hdry : oid ≠ "DRY_RUN") :
    ((monitorStep tr price).1.status = .cancelledPastTp ∧
     (monitorStep tr price).2 = true) ∧
    (∀ tr' : Trade, tr'.status = .cancelledPastTp →
      (∀ p, monitorStep tr' p = (tr', false)) ∧
      (∀ sz avg now, fillPollStep tr' sz avg now = tr') ∧
      (∀ upd maxSl capSl now,
        applySignalUpdate tr' upd maxSl capSl now = (tr', noActions)) ∧
      (∀ f : Trade → Trade,
        (∀ t : Trade, t.status ≠ .pending → t.status ≠ .opened → f t = t) →
        f tr' = tr')) := by
  constructor
  · have hcancel : (match tr.order_side with
        | Side.buy => decide (tp1 ≤ updatedPeak tr price)
        | Side.sell => decide (updatedPeak tr price ≤ tp1)) = true := by
      cases hside : tr.order_side with
      | buy => simpa using hbuy hside
      | sell => simpa using hsell hside
    constructor
    · simp only [monitorStep, hs, htp]
      rw [if_neg (by simp)]
      simp only [hcancel, if_true]
    · simp only [monitorStep, hs, htp]
      rw [if_neg (by simp)]
      simp only [hcancel, if_true]
      simp [hoid, hdry]
  · intro tr' hterm
    refine ⟨?_, ?_, ?_, ?_⟩
    · intro p
      simp [monitorStep, hterm]
    · intro sz avg now
      simp [fillPollStep, hterm]
    · intro upd maxSl capSl now
      simp [applySignalUpdate, hterm]
    · intro f hf
      exact hf tr' (by simp [hterm]) (by simp [hterm])

/-- Witness for C4 at a concrete input: price 106 lifts the tracked peak
past TP1 = 105, the monitor pass cancels the entry and parks the trade
in `cancelled_past_tp`, and every modelled later operation keeps it
there. -/

theorem c4_past_tp_terminal_witness :
    ((monitorStep trC4 106).1.status = .cancelledPastTp ∧
     (monitorStep trC4 106).2 = true) ∧
    (monitorStep (monitorStep trC4 106).1 107 = ((monitorStep trC4 106).1, false) ∧
     fillPollStep (monitorStep trC4 106).1 1 100 0 = (monitorStep trC4 106).1) := by
  have h := c4_past_tp_terminal trC4 106 105 [110] "oid4" rfl rfl
    (fun _ => by norm_num [updatedPeak, trC4]) (fun hside => by cases hside)
    rfl (by decide)
  have hterm : (monitorStep trC4 106).1.status = .cancelledPastTp := h.1.1
  exact ⟨h.1, ((h.2 _ hterm).1 107), ((h.2 _ hterm).2.1 1 100 0)⟩

/-- Claim C7: `analyze_trend`'s recommendation follows the claimed policy
in order — fewer than 4 detected swing points yields SKIP; a side not
matching the detected direction yields SKIP; a leg count beyond
`max_allowed_leg` yields SKIP; otherwise in-pullback yields VALID; leg
at most 2 yields VALID; any remaining case (leg 3+, no pullback) yields
LATE — where direction, leg count and pullback flag are the ones the
pipeline itself computes. -/

theorem c7_recommendation_policy (candles : List Candle) (side : Side)
    (maxLeg lookback : ℕ) :
    (analyze_trend candles side maxLeg lookback (3/2) 3).recommendation =
      (let atr := calculate_atr candles 14
       let swings := detect_swing_points candles lookback
       let significant0 := filter_significant_swings swings atr (3/2)
       let significant := if significant0.length < 4 then swings
                          else significant0
       let dl := classify_swing_sequence significant
       let cl := count_significant_legs swings dl.2 dl.1 atr (3/2) 3
       if swings.length < 4 then "SKIP"
       else if sideMatchesDirection side dl.1 = false then "SKIP"
       else if maxLeg < cl.1 then "SKIP"
       else if cl.2.1 then "VALID"
       else if cl.1 ≤ 2 then "VALID"
       else "LATE") := by
  simp only [analyze_trend]
  by_cases h4 : (detect_swing_points candles lookback).length < 4
  · simp [h4]
  · simp only [if_neg h4]
    generalize hDL : (classify_swing_sequence
      (if (filter_significant_swings (detect_swing_points candles lookback)
            (calculate_atr candles 14) (3/2)).length < 4
       then detect_swing_points candles lookback
       else filter_significant_swings (detect_swing_points candles lookback)
            (calculate_atr candles 14) (3/2))) = DL
    generalize hCL : (count_significant_legs (detect_swing_points candles lookback)
      DL.2 DL.1 (calculate_atr candles 14) (3/2) 3) = CL
    obtain ⟨D, L⟩ := DL
    cases side <;> cases D <;>
      simp [sideMatchesDirection, apply_ite TrendAnalysis.recommendation]
